import Mathlib

/-!
Shallow embedding of the `srm` command-line utility (Go, `srm.go` plus its
helper file with `In`, `IsDir`, `IsReadOnly`).

`srm` moves its operands into a trash directory instead of unlinking them.
The pure argument classifier (`parseArgs`), the confirmation helper
(`getUserConfirmation`) and the per-operand deletion policy engine (the body
of `main`) are embedded as Lean functions.  Effects are made explicit:

* the filesystem accessors `IsDir` / `IsReadOnly` become an `FS` record of
  functions returning `Except String Bool` (the Go functions return
  `(bool, error)`);
* the user's interactive input becomes a function from the prompt string to
  the token `fmt.Scanln` reads (`none` models a read failure, in which case
  the scanned Go variable keeps its zero value `""`);
* every observable action of `main` (printing, prompting, the `os.Rename`
  call) is recorded as an `Ev` in an event trace, and termination is an
  explicit `RunResult` (`os.Exit` with a code, normal return, or the runtime
  panic that `filepath[len(filepath)-1:]` raises on an empty string).
-/

namespace Srm

/-- Go helper `In(needle, haystack)`: linear scan for an exact string match. -/
def In (needle : String) : List String → Bool
  | [] => false
  | i :: rest => if needle == i then true else In needle rest

/-- The recognized flag tokens, Go global `VALIDARGS`. -/
def VALIDARGS : List String :=
  ["-h", "--help", "-P", "-f", "-i", "-I", "-r", "-R", "-d", "-v"]

/-- The loop of Go `parseArgs`: walk the raw tokens with the
`seenDoubleDash` flag, producing `(flags, files)`.  A token `"--"` only sets
the flag and is consumed; a token in `VALIDARGS` before the marker goes to
`flags`; every other token goes to `files`. -/
def parseArgsLoop : List String → Bool → List String × List String
  | [], _ => ([], [])
  | arg :: rest, seenDoubleDash =>
    if arg == "--" then
      parseArgsLoop rest true
    else if In arg VALIDARGS && !seenDoubleDash then
      let (flags, files) := parseArgsLoop rest seenDoubleDash
      (arg :: flags, files)
    else
      let (flags, files) := parseArgsLoop rest seenDoubleDash
      (flags, arg :: files)

/-- Go `parseArgs` on `os.Args[1:]`: with no tokens at all it prints usage
and exits 1 (modelled as `none`); otherwise it runs the classifier loop. -/
def parseArgs (args : List String) : Option (List String × List String) :=
  if args.length < 1 then none
  else some (parseArgsLoop args false)

/-- The affirmative-response set of `getUserConfirmation`. -/
def affirmativeResponses : List String :=
  ["y", "yes", "yea", "yeah", "da", "si", "letsgo"]

/-- Go `strings.ToLower`: lowercase the string character by character
(`Char.toLower` is the per-character case map). -/
def toLowerString (s : String) : String :=
  String.mk (s.data.map Char.toLower)

/-- Go `getUserConfirmation(msg)`: prints `msg`, scans one token
(`none` = read failure, the scanned variable stays `""`), lowercases it and
tests membership in the affirmative set.  Returns (printed text, answer). -/
def getUserConfirmation (msg : String) (input : Option String) : String × Bool :=
  let interactiveResponse := toLowerString (input.getD "")
  (msg, In interactiveResponse affirmativeResponses)

/-- The answer the engine gets back for a given prompt, when the user's
typed tokens are given by `input` as a function of the prompt text. -/
def answers (input : String → Option String) (msg : String) : Bool :=
  (getUserConfirmation msg (input msg)).2

/- Flag booleans extracted in `main` by membership in the parsed flag list. -/

def helpFlag (flags : List String) : Bool :=
  In "-h" flags || In "--help" flags

def forceFlag (flags : List String) : Bool :=
  In "-f" flags

def interactiveFlag (flags : List String) : Bool :=
  In "-i" flags

def nonintrusiveInteractiveFlag (flags : List String) : Bool :=
  In "-I" flags

def recursiveFlag (flags : List String) : Bool :=
  In "-r" flags || In "-R" flags

def directoryFlag (flags : List String) : Bool :=
  In "-d" flags

def verboseFlag (flags : List String) : Bool :=
  In "-v" flags

/-- The filesystem accessors of the helper file: `IsDir` and `IsReadOnly`
both wrap `os.Stat` and may fail with an error. -/
structure FS where
  isDir : String → Except String Bool
  isReadOnly : String → Except String Bool

/-- Observable events of a run of `main`, in order. -/
inductive Ev where
  /-- Output of `usage()`. -/
  | usage : Ev
  /-- Call of `getUserConfirmation msg` that returned `response`. -/
  | prompt (msg : String) (response : Bool) : Ev
  /-- Output of `fmt.Println(err)` for a filesystem-access error. -/
  | errPrint (e : String) : Ev
  /-- Output of the directory rejection `fmt.Printf`. -/
  | dirReject (path : String) : Ev
  /-- Output of the read-only rejection `fmt.Println`. -/
  | roReject : Ev
  /-- Output of the verbose `fmt.Println(filename)`. -/
  | verbosePrint (name : String) : Ev
  /-- Call of `os.Rename(filepath, dest)` (result unchecked by the Go code). -/
  | renameCall (src dest : String) : Ev
deriving DecidableEq, Repr

/-- The literal text each event writes to the terminal (empty for the
rename, which prints nothing). -/
def Ev.output : Ev → String
  | .usage =>
      "Usage:\n    srm [-f | -i] [-dIRrv] <filepath> <...>\nNote:\n    Intended to replace `rm` via a shell alias\n"
  | .prompt msg _ => msg
  | .errPrint e => e ++ "\n"
  | .dirReject path => "srm: " ++ path ++ ": is a directory\n"
  | .roReject => "File is read-only\n"
  | .verbosePrint name => name ++ "\n"
  | .renameCall _ _ => ""

/-- How a run of `main` ends. -/
inductive RunResult where
  /-- Normal return of `main` (process exit status 0). -/
  | finished : RunResult
  /-- Call of `os.Exit(code)`. -/
  | exited (code : Nat) : RunResult
  /-- a Go runtime panic (string index out of range). -/
  | panicked : RunResult
deriving DecidableEq, Repr

/-- Per-operand control: go on to the next operand, or the run halts. -/
inductive Ctl where
  | next : Ctl
  | halt (r : RunResult) : Ctl
deriving DecidableEq, Repr

/-- Go `strings.Split(s, "/")` at the character level: cut the character
list at every `'/'`.  Always returns at least one (possibly empty) segment. -/
def splitOnSlash : List Char → List (List Char)
  | [] => [[]]
  | c :: rest =>
    match splitOnSlash rest with
    | [] => [[c]]
    | seg :: segs =>
      if c == '/' then [] :: seg :: segs else (c :: seg) :: segs

/-- Go `strings.Split(filepath, "/")`. -/
def stringSplitSlash (s : String) : List String :=
  (splitOnSlash s.data).map String.mk

/-- The last element of the split (`splitFilePath[len(splitFilePath)-1]`);
the split is never empty, so the `""` default is never used. -/
def lastSegment : List String → String
  | [] => ""
  | [x] => x
  | _ :: x :: rest => lastSegment (x :: rest)

/-- The display name: `strings.Split(filepath, "/")` then its last element. -/
def fileNameOf (filepath : String) : String :=
  lastSegment (stringSplitSlash filepath)

/-- The destination path: `targetDir + "/" + filename`. -/
def destOf (targetDir filepath : String) : String :=
  targetDir ++ "/" ++ fileNameOf filepath

/-- Go `filepath[len(filepath)-1:]`: the slice holding the last byte.  On
the empty string the start index `len-1` is negative and Go panics with a
slice-bounds error, modelled as `none`. -/
def lastByteSlice (s : String) : Option String :=
  if s = "" then none
  else some (s.drop (s.length - 1))

/-- Go `strings.TrimRight(s, "/")`: drop every trailing slash. -/
def trimRightSlashes (s : String) : String :=
  String.mk ((s.data.reverse.dropWhile (fun c => c == '/')).reverse)

/-- The normalization step of `main`: if the path ends with `/`, strip the
trailing slashes; panics (`none`) on the empty string. -/
def normalizePath (s : String) : Option String :=
  match lastByteSlice s with
  | none => none
  | some last => some (if last == "/" then trimRightSlashes s else s)

/-- Steps 7-11 of the per-operand sequence: normalization, the `IsReadOnly`
check, the read-only rejection, verbose output, and the rename. -/
def moveStage (fs : FS) (flags : List String) (filepath filename dest : String) :
    List Ev × Ctl :=
  match normalizePath filepath with
  | none => ([], .halt .panicked)
  | some normalized =>
    match fs.isReadOnly normalized with
    | .error e => ([.errPrint e], .halt (.exited 1))
    | .ok fileIsReadOnly =>
      if fileIsReadOnly && !forceFlag flags then
        ([.roReject], .halt (.exited 1))
      else if verboseFlag flags then
        ([.verbosePrint filename, .renameCall normalized dest], .next)
      else
        ([.renameCall normalized dest], .next)

/-- The `-i` per-file prompt: a negative answer skips the operand. -/
def interactiveStage (input : String → Option String) (fs : FS)
    (flags : List String) (filepath filename dest : String) : List Ev × Ctl :=
  if interactiveFlag flags then
    let deleteMsg := "remove " ++ filepath ++ "?"
    if answers input deleteMsg then
      let (evs, c) := moveStage fs flags filepath filename dest
      (Ev.prompt deleteMsg true :: evs, c)
    else
      ([.prompt deleteMsg false], .next)
  else
    moveStage fs flags filepath filename dest

/-- Derive the display name and destination, then continue with the
interactive stage. -/
def nameStage (input : String → Option String) (fs : FS) (targetDir : String)
    (flags : List String) (filepath : String) : List Ev × Ctl :=
  let filename := fileNameOf filepath
  let dest := targetDir ++ "/" ++ filename
  interactiveStage input fs flags filepath filename dest

/-- The whole per-operand body of the loop in `main`. -/
def processFile (input : String → Option String) (fs : FS) (targetDir : String)
    (flags : List String) (filepath : String) : List Ev × Ctl :=
  match fs.isDir filepath with
  | .error e => ([.errPrint e], .halt (.exited 1))
  | .ok isDir =>
    if isDir && !recursiveFlag flags && !directoryFlag flags then
      ([.dirReject filepath], .halt (.exited 1))
    else if isDir && nonintrusiveInteractiveFlag flags && recursiveFlag flags then
      let recursiveDelMsg := "recursively remove " ++ filepath ++ "?"
      if answers input recursiveDelMsg then
        let (evs, c) := nameStage input fs targetDir flags filepath
        (Ev.prompt recursiveDelMsg true :: evs, c)
      else
        ([.prompt recursiveDelMsg false], .next)
    else
      nameStage input fs targetDir flags filepath

/-- The loop over the operands: stop on the first halting control. -/
def runLoop (input : String → Option String) (fs : FS) (targetDir : String)
    (flags : List String) : List String → List Ev × RunResult
  | [] => ([], .finished)
  | filepath :: rest =>
    let (evs, c) := processFile input fs targetDir flags filepath
    match c with
    | .halt r => (evs, r)
    | .next =>
      let (evs2, r) := runLoop input fs targetDir flags rest
      (evs ++ evs2, r)

/-- The `-I` batch pre-pass message for `n` operands. -/
def prePassMsg (n : Nat) : String :=
  "remove " ++ toString n ++ " files?"

/-- The body of `main` after `parseArgs`: help, the `-I` batch pre-pass when
more than three operands are given, then the per-operand loop. -/
def mainRun (input : String → Option String) (fs : FS) (targetDir : String)
    (flags files : List String) : List Ev × RunResult :=
  if helpFlag flags then
    ([.usage], .exited 0)
  else if nonintrusiveInteractiveFlag flags && decide (files.length > 3) then
    let removeMultipleMsg := prePassMsg files.length
    if answers input removeMultipleMsg then
      let (evs, r) := runLoop input fs targetDir flags files
      (Ev.prompt removeMultipleMsg true :: evs, r)
    else
      ([.prompt removeMultipleMsg false], .exited 0)
  else
    runLoop input fs targetDir flags files

/-! ### Basic lemmas about the helpers -/

theorem In_iff_mem (needle : String) : ∀ l : List String, In needle l = true ↔ needle ∈ l := by
  intro l
  induction l with
  | nil => simp [In]
  | cons a rest ih =>
    by_cases h : needle = a
    · subst h; simp [In]
    · have hb : (needle == a) = false := beq_eq_false_iff_ne.mpr h
      simp [In, hb, ih, h]

theorem In_dedup (s : String) (l : List String) : In s l.dedup = In s l := by
  rw [Bool.eq_iff_iff, In_iff_mem, In_iff_mem]
  exact List.mem_dedup

/-- Once the end-of-options marker has been seen, every later token goes to
the operand list, except further markers, which are consumed too. -/
theorem parseArgsLoop_after_marker :
    ∀ l : List String, parseArgsLoop l true = ([], l.filter (fun t => !(t == "--"))) := by
  intro l
  induction l with
  | nil => simp [parseArgsLoop]
  | cons a rest ih =>
    by_cases h : a == "--"
    · simp [parseArgsLoop, h, ih, List.filter]
    · simp [parseArgsLoop, h, ih, List.filter]

/-- The marker itself is emitted into neither output. -/
theorem parseArgsLoop_no_marker :
    ∀ (l : List String) (seen : Bool),
      "--" ∉ (parseArgsLoop l seen).1 ∧ "--" ∉ (parseArgsLoop l seen).2 := by
  intro l
  induction l with
  | nil => intro seen; simp [parseArgsLoop]
  | cons a rest ih =>
    intro seen
    by_cases h : a == "--"
    · simpa [parseArgsLoop, h] using ih true
    · have hne : a ≠ "--" := by simpa using h
      by_cases hv : In a VALIDARGS && !seen
      · simpa [parseArgsLoop, h, hv, Ne.symm hne] using ih seen
      · simpa [parseArgsLoop, h, hv, Ne.symm hne] using ih seen

/-- Splitting the raw tokens at the first marker: everything before it is
classified as usual, everything after it becomes an operand. -/
theorem parseArgsLoop_append_marker :
    ∀ pre post : List String, "--" ∉ pre →
      parseArgsLoop (pre ++ "--" :: post) false =
        ((parseArgsLoop pre false).1,
         (parseArgsLoop pre false).2 ++ post.filter (fun t => !(t == "--"))) := by
  intro pre
  induction pre with
  | nil =>
    intro post _
    simp [parseArgsLoop, parseArgsLoop_after_marker]
  | cons a rest ih =>
    intro post hpre
    have hne : a ≠ "--" := fun h => hpre (by simp [h])
    have hb : (a == "--") = false := beq_eq_false_iff_ne.mpr hne
    have hrest : "--" ∉ rest := fun h => hpre (List.mem_cons_of_mem a h)
    by_cases hv : In a VALIDARGS
    · simp [parseArgsLoop, hb, hv, ih post hrest]
    · simp [parseArgsLoop, hb, hv, ih post hrest]

/-- C2: tokens after the first end-of-options marker are never classified as
flags, even when they match a recognized flag string; the marker reaches
neither output; classifying `["--", "-f"]` yields no flags and the single
operand `"-f"`. -/
theorem parseArgs_end_of_options (pre post args : List String)
    (hpre : "--" ∉ pre) :
    parseArgsLoop (pre ++ "--" :: post) false =
      ((parseArgsLoop pre false).1,
       (parseArgsLoop pre false).2 ++ post.filter (fun t => !(t == "--"))) ∧
    "--" ∉ (parseArgsLoop args false).1 ∧
    "--" ∉ (parseArgsLoop args false).2 ∧
    parseArgs ["--", "-f"] = some ([], ["-f"]) :=
  ⟨parseArgsLoop_append_marker pre post hpre,
   (parseArgsLoop_no_marker args false).1,
   (parseArgsLoop_no_marker args false).2,
   by decide⟩

theorem parseArgs_end_of_options_witness :
    parseArgsLoop (["-v"] ++ "--" :: ["-f"]) false =
      ((parseArgsLoop ["-v"] false).1,
       (parseArgsLoop ["-v"] false).2 ++ ["-f"].filter (fun t => !(t == "--"))) ∧
    "--" ∉ (parseArgsLoop ["--", "-f"] false).1 ∧
    "--" ∉ (parseArgsLoop ["--", "-f"] false).2 ∧
    parseArgs ["--", "-f"] = some ([], ["-f"]) :=
  parseArgs_end_of_options ["-v"] ["-f"] ["--", "-f"] (by decide)

/-- C8: the confirmation helper prints the given message verbatim and
answers `true` exactly when the lowercased scanned token is one of the
affirmative responses; a read failure or an empty token yields `false`. -/
theorem getUserConfirmation_spec (msg : String) (input : Option String) :
    (getUserConfirmation msg input).1 = msg ∧
    ((getUserConfirmation msg input).2 = true ↔
      toLowerString (input.getD "") ∈ ["y", "yes", "yea", "yeah", "da", "si", "letsgo"]) ∧
    (getUserConfirmation msg none).2 = false ∧
    (getUserConfirmation msg (some "")).2 = false := by
  refine ⟨rfl, ?_, rfl, rfl⟩
  simpa [getUserConfirmation, affirmativeResponses] using
    In_iff_mem (toLowerString (input.getD "")) affirmativeResponses

/-- C10: on the empty operand the trailing-separator normalization indexes
the string at `len-1`, out of range, and the run panics before reaching the
read-only check or the move; for every non-empty operand the slice is in
range and normalization succeeds. -/
theorem empty_operand_normalization_panics (input : String → Option String)
    (fs : FS) (targetDir : String) (flags : List String) (s : String)
    (hdir : fs.isDir "" = .ok false)
    (hi : interactiveFlag flags = false)
    (hs : s ≠ "") :
    processFile input fs targetDir flags "" = ([], .halt .panicked) ∧
    normalizePath "" = none ∧
    (normalizePath s).isSome = true := by
  refine ⟨?_, rfl, by simp [normalizePath, lastByteSlice, hs]⟩
  simp [processFile, hdir, nameStage, interactiveStage, hi, moveStage, normalizePath,
    lastByteSlice]

theorem empty_operand_normalization_panics_witness :
    processFile (fun _ => some "y") ⟨fun _ => .ok false, fun _ => .ok false⟩
        "/tmp" [] "" = ([], .halt .panicked) ∧
    normalizePath "" = none ∧
    (normalizePath "foo").isSome = true :=
  empty_operand_normalization_panics (fun _ => some "y")
    ⟨fun _ => .ok false, fun _ => .ok false⟩ "/tmp" [] "foo" rfl rfl (by decide)

/-- C1 as stated is false: for the operand `"foo/"` the display name is the
empty string (the segment after the trailing separator), not `"foo"`, and
the destination is `"/tmp/"`, not `"/tmp/foo"` — the display-name derivation
runs before the trailing-separator stripping and does not tolerate the
separator.  Only the move source coincides with that of operand `"foo"`. -/
theorem trailing_slash_counterexample :
    fileNameOf "foo/" = "" ∧
    fileNameOf "foo" = "foo" ∧
    destOf "/tmp" "foo/" = "/tmp/" ∧
    destOf "/tmp" "foo" = "/tmp/foo" ∧
    ¬(fileNameOf "foo/" = fileNameOf "foo") ∧
    ¬(destOf "/tmp" "foo/" = destOf "/tmp" "foo") ∧
    processFile (fun _ => some "y") ⟨fun _ => .ok false, fun _ => .ok false⟩
        "/tmp" [] "foo/"
      = ([.renameCall "foo" "/tmp/"], .next) ∧
    processFile (fun _ => some "y") ⟨fun _ => .ok false, fun _ => .ok false⟩
        "/tmp" [] "foo"
      = ([.renameCall "foo" "/tmp/foo"], .next) := by
  refine ⟨rfl, rfl, rfl, rfl, by decide, by decide, rfl, rfl⟩

/-- C1 amended: for the operand `"foo/"` the trailing separator is stripped
before the move, so the move source is `"foo"`, the same as for operand
`"foo"`; but the display name derived for `"foo/"` is `""` and the
destination is the destination root followed by a bare separator, unlike the
display name `"foo"` and destination `<root>/foo` derived for `"foo"`. -/
theorem trailing_slash_normalization (input : String → Option String) (fs : FS)
    (targetDir : String) (flags : List String)
    (hdir1 : fs.isDir "foo/" = .ok false)
    (hdir2 : fs.isDir "foo" = .ok false)
    (hro : fs.isReadOnly "foo" = .ok false)
    (hi : interactiveFlag flags = false)
    (hv : verboseFlag flags = false) :
    processFile input fs targetDir flags "foo/"
      = ([.renameCall "foo" (targetDir ++ "/")], .next) ∧
    processFile input fs targetDir flags "foo"
      = ([.renameCall "foo" (targetDir ++ "/" ++ "foo")], .next) ∧
    fileNameOf "foo/" = "" ∧
    fileNameOf "foo" = "foo" ∧
    normalizePath "foo/" = some "foo" := by
  have hn1 : normalizePath "foo/" = some "foo" := rfl
  have hn2 : normalizePath "foo" = some "foo" := rfl
  have hfn1 : fileNameOf "foo/" = "" := rfl
  have hfn2 : fileNameOf "foo" = "foo" := rfl
  refine ⟨?_, ?_, hfn1, hfn2, hn1⟩
  · simp [processFile, hdir1, nameStage, hfn1, interactiveStage, hi, moveStage,
      hn1, hro, hv, String.append_empty]
  · simp [processFile, hdir2, nameStage, hfn2, interactiveStage, hi, moveStage,
      hn2, hro, hv]

theorem trailing_slash_normalization_witness :
    processFile (fun _ => some "y") ⟨fun _ => .ok false, fun _ => .ok false⟩
        "/tmp" [] "foo/"
      = ([.renameCall "foo" ("/tmp" ++ "/")], .next) ∧
    processFile (fun _ => some "y") ⟨fun _ => .ok false, fun _ => .ok false⟩
        "/tmp" [] "foo"
      = ([.renameCall "foo" ("/tmp" ++ "/" ++ "foo")], .next) ∧
    fileNameOf "foo/" = "" ∧
    fileNameOf "foo" = "foo" ∧
    normalizePath "foo/" = some "foo" :=
  trailing_slash_normalization (fun _ => some "y")
    ⟨fun _ => .ok false, fun _ => .ok false⟩ "/tmp" [] rfl rfl rfl rfl rfl

/-- C3: with the batch-interactive flag and more than three operands, a
single count-summary prompt precedes all per-file processing, and a negative
answer ends the run with status 0 and no other event; with three or fewer
operands the pre-pass does not fire and the run is exactly the per-operand
loop. -/
theorem batch_prepass (input : String → Option String) (fs : FS)
    (targetDir : String) (flags files files' : List String)
    (hhelp : helpFlag flags = false)
    (hI : nonintrusiveInteractiveFlag flags = true)
    (hlen : 3 < files.length)
    (hans : answers input (prePassMsg files.length) = false)
    (hlen' : files'.length ≤ 3) :
    mainRun input fs targetDir flags files
      = ([.prompt (prePassMsg files.length) false], .exited 0) ∧
    mainRun input fs targetDir flags files'
      = runLoop input fs targetDir flags files' := by
  constructor
  · simp [mainRun, hhelp, hI, hlen, hans]
  · simp [mainRun, hhelp, hI, Nat.not_lt.mpr hlen']

theorem batch_prepass_witness :
    mainRun (fun _ => some "n") ⟨fun _ => .ok false, fun _ => .ok false⟩
        "/tmp" ["-I"] ["a", "b", "c", "d", "e"]
      = ([.prompt (prePassMsg 5) false], .exited 0) ∧
    mainRun (fun _ => some "n") ⟨fun _ => .ok false, fun _ => .ok false⟩
        "/tmp" ["-I"] ["a", "b", "c"]
      = runLoop (fun _ => some "n") ⟨fun _ => .ok false, fun _ => .ok false⟩
        "/tmp" ["-I"] ["a", "b", "c"] :=
  batch_prepass (fun _ => some "n") ⟨fun _ => .ok false, fun _ => .ok false⟩
    "/tmp" ["-I"] ["a", "b", "c", "d", "e"] ["a", "b", "c"]
    rfl rfl (by decide) rfl (by decide)

/-! ### The directory rejection is confined to its own branch -/

theorem dirReject_not_in_moveStage (fs : FS) (flags : List String)
    (fp fn d p : String) : Ev.dirReject p ∉ (moveStage fs flags fp fn d).1 := by
  unfold moveStage
  cases hn : normalizePath fp with
  | none => simp
  | some nfp =>
    cases hro : fs.isReadOnly nfp with
    | error e => simp [hro]
    | ok ro =>
      by_cases h1 : ro && !forceFlag flags
      · simp [hro, h1]
      · by_cases h2 : verboseFlag flags <;> simp [hro, h1, h2]

theorem dirReject_not_in_interactiveStage (input : String → Option String)
    (fs : FS) (flags : List String) (fp fn d p : String) :
    Ev.dirReject p ∉ (interactiveStage input fs flags fp fn d).1 := by
  unfold interactiveStage
  by_cases hi : interactiveFlag flags
  · by_cases ha : answers input ("remove " ++ fp ++ "?")
    · simp [hi, ha, dirReject_not_in_moveStage]
    · simp [hi, ha]
  · simp [hi, dirReject_not_in_moveStage]

theorem dirReject_not_in_nameStage (input : String → Option String) (fs : FS)
    (targetDir : String) (flags : List String) (fp p : String) :
    Ev.dirReject p ∉ (nameStage input fs targetDir flags fp).1 := by
  simpa [nameStage] using
    dirReject_not_in_interactiveStage input fs flags fp (fileNameOf fp)
      (targetDir ++ "/" ++ fileNameOf fp) p

theorem dirReject_not_in_processFile (input : String → Option String) (fs : FS)
    (targetDir : String) (flags : List String) (fp p : String)
    (hr : recursiveFlag flags = true) :
    Ev.dirReject p ∉ (processFile input fs targetDir flags fp).1 := by
  unfold processFile
  cases hd : fs.isDir fp with
  | error e => simp
  | ok isDir =>
    have hcond : (isDir && !recursiveFlag flags && !directoryFlag flags) = false := by
      simp [hr]
    by_cases h2 : isDir && nonintrusiveInteractiveFlag flags && recursiveFlag flags
    · by_cases ha : answers input ("recursively remove " ++ fp ++ "?")
      · simp [hcond, h2, ha, dirReject_not_in_nameStage]
      · simp [hcond, h2, ha]
    · simp [hcond, h2, dirReject_not_in_nameStage]

/-- C4: a directory operand with neither the recursive nor the
allow-directory flag produces exactly the "is a directory" rejection and
ends the whole run with exit status 1, before any move and before any later
operand; with the recursive flag set the rejection is never emitted. -/
theorem directory_rejection (input : String → Option String) (fs : FS)
    (targetDir : String) (flags flags' : List String) (fp fp' p : String)
    (rest : List String)
    (hdir : fs.isDir fp = .ok true)
    (hr : recursiveFlag flags = false)
    (hd : directoryFlag flags = false)
    (hr' : recursiveFlag flags' = true) :
    runLoop input fs targetDir flags (fp :: rest) = ([.dirReject fp], .exited 1) ∧
    Ev.output (.dirReject fp) = "srm: " ++ fp ++ ": is a directory\n" ∧
    Ev.dirReject p ∉ (processFile input fs targetDir flags' fp').1 := by
  refine ⟨?_, rfl, dirReject_not_in_processFile input fs targetDir flags' fp' p hr'⟩
  simp [runLoop, processFile, hdir, hr, hd]

theorem directory_rejection_witness :
    runLoop (fun _ => some "y") ⟨fun _ => .ok true, fun _ => .ok false⟩
        "/tmp" [] ("d" :: ["e"]) = ([.dirReject "d"], .exited 1) ∧
    Ev.output (.dirReject "d") = "srm: " ++ "d" ++ ": is a directory\n" ∧
    Ev.dirReject "x" ∉
      (processFile (fun _ => some "y") ⟨fun _ => .ok true, fun _ => .ok false⟩
        "/tmp" ["-r"] "d2").1 :=
  directory_rejection (fun _ => some "y")
    ⟨fun _ => .ok true, fun _ => .ok false⟩ "/tmp" [] ["-r"] "d" "d2" "x" ["e"]
    rfl rfl rfl rfl

/-- C5: an operand the read-only accessor reports read-only is fatal without
the force flag — exactly the "File is read-only" message and exit status 1,
with no move of it or of any later operand; with the force flag the
rejection is suppressed and the move is performed. -/
theorem readonly_rejection (input : String → Option String) (fs : FS)
    (targetDir : String) (flags flags' : List String) (fp nfp : String)
    (rest : List String)
    (hdir : fs.isDir fp = .ok false)
    (hnorm : normalizePath fp = some nfp)
    (hro : fs.isReadOnly nfp = .ok true)
    (hi : interactiveFlag flags = false)
    (hf : forceFlag flags = false)
    (hi' : interactiveFlag flags' = false)
    (hf' : forceFlag flags' = true)
    (hv' : verboseFlag flags' = false) :
    runLoop input fs targetDir flags (fp :: rest) = ([.roReject], .exited 1) ∧
    Ev.output .roReject = "File is read-only\n" ∧
    processFile input fs targetDir flags' fp
      = ([.renameCall nfp (targetDir ++ "/" ++ fileNameOf fp)], .next) := by
  refine ⟨?_, rfl, ?_⟩
  · simp [runLoop, processFile, hdir, nameStage, interactiveStage, hi, moveStage,
      hnorm, hro, hf]
  · simp [processFile, hdir, nameStage, interactiveStage, hi', moveStage,
      hnorm, hro, hf', hv']

theorem readonly_rejection_witness :
    runLoop (fun _ => some "y") ⟨fun _ => .ok false, fun _ => .ok true⟩
        "/tmp" [] ("a" :: ["b"]) = ([.roReject], .exited 1) ∧
    Ev.output .roReject = "File is read-only\n" ∧
    processFile (fun _ => some "y") ⟨fun _ => .ok false, fun _ => .ok true⟩
        "/tmp" ["-f"] "a"
      = ([.renameCall "a" ("/tmp" ++ "/" ++ fileNameOf "a")], .next) :=
  readonly_rejection (fun _ => some "y")
    ⟨fun _ => .ok false, fun _ => .ok true⟩ "/tmp" [] ["-f"] "a" "a" ["b"]
    rfl rfl rfl rfl rfl rfl rfl rfl

/-- C6: for a directory operand with both the batch-interactive and the
recursive flag, the engine asks "recursively remove <path>?"; a negative
answer contributes only that prompt and processing continues with the next
operand. -/
theorem recursive_prompt_decline (input : String → Option String) (fs : FS)
    (targetDir : String) (flags : List String) (fp : String)
    (rest : List String)
    (hdir : fs.isDir fp = .ok true)
    (hI : nonintrusiveInteractiveFlag flags = true)
    (hr : recursiveFlag flags = true)
    (hans : answers input ("recursively remove " ++ fp ++ "?") = false) :
    processFile input fs targetDir flags fp
      = ([.prompt ("recursively remove " ++ fp ++ "?") false], .next) ∧
    runLoop input fs targetDir flags (fp :: rest)
      = (Ev.prompt ("recursively remove " ++ fp ++ "?") false
          :: (runLoop input fs targetDir flags rest).1,
         (runLoop input fs targetDir flags rest).2) := by
  have h1 : processFile input fs targetDir flags fp
      = ([.prompt ("recursively remove " ++ fp ++ "?") false], .next) := by
    simp [processFile, hdir, hr, hI, hans]
  refine ⟨h1, ?_⟩
  simp [runLoop, h1]

theorem recursive_prompt_decline_witness :
    processFile (fun _ => some "n") ⟨fun _ => .ok true, fun _ => .ok false⟩
        "/tmp" ["-I", "-r"] "d"
      = ([.prompt ("recursively remove " ++ "d" ++ "?") false], .next) ∧
    runLoop (fun _ => some "n") ⟨fun _ => .ok true, fun _ => .ok false⟩
        "/tmp" ["-I", "-r"] ("d" :: ["e"])
      = (Ev.prompt ("recursively remove " ++ "d" ++ "?") false
          :: (runLoop (fun _ => some "n") ⟨fun _ => .ok true, fun _ => .ok false⟩
              "/tmp" ["-I", "-r"] ["e"]).1,
         (runLoop (fun _ => some "n") ⟨fun _ => .ok true, fun _ => .ok false⟩
              "/tmp" ["-I", "-r"] ["e"]).2) :=
  recursive_prompt_decline (fun _ => some "n")
    ⟨fun _ => .ok true, fun _ => .ok false⟩ "/tmp" ["-I", "-r"] "d" ["e"]
    rfl rfl rfl rfl

/-- C7: with the interactive flag, an operand is prompted "remove <path>?";
on a negative answer it contributes only that prompt — no rename call, no
read-only rejection — and the run continues with the next operand, finishing
normally when it was the only operand. -/
theorem interactive_decline (input : String → Option String) (fs : FS)
    (targetDir : String) (flags : List String) (fp src dst : String)
    (rest : List String)
    (hdir : fs.isDir fp = .ok false)
    (hi : interactiveFlag flags = true)
    (hans : answers input ("remove " ++ fp ++ "?") = false) :
    processFile input fs targetDir flags fp
      = ([.prompt ("remove " ++ fp ++ "?") false], .next) ∧
    runLoop input fs targetDir flags (fp :: rest)
      = (Ev.prompt ("remove " ++ fp ++ "?") false
          :: (runLoop input fs targetDir flags rest).1,
         (runLoop input fs targetDir flags rest).2) ∧
    runLoop input fs targetDir flags [fp]
      = ([.prompt ("remove " ++ fp ++ "?") false], .finished) ∧
    Ev.roReject ∉ (processFile input fs targetDir flags fp).1 ∧
    Ev.renameCall src dst ∉ (processFile input fs targetDir flags fp).1 := by
  have h1 : processFile input fs targetDir flags fp
      = ([.prompt ("remove " ++ fp ++ "?") false], .next) := by
    simp [processFile, hdir, nameStage, interactiveStage, hi, hans]
  refine ⟨h1, ?_, ?_, ?_, ?_⟩
  · simp [runLoop, h1]
  · simp [runLoop, h1]
  · simp [h1]
  · simp [h1]

theorem interactive_decline_witness :
    processFile (fun _ => some "n") ⟨fun _ => .ok false, fun _ => .ok true⟩
        "/tmp" ["-i"] "a"
      = ([.prompt ("remove " ++ "a" ++ "?") false], .next) ∧
    runLoop (fun _ => some "n") ⟨fun _ => .ok false, fun _ => .ok true⟩
        "/tmp" ["-i"] ("a" :: ["b"])
      = (Ev.prompt ("remove " ++ "a" ++ "?") false
          :: (runLoop (fun _ => some "n") ⟨fun _ => .ok false, fun _ => .ok true⟩
              "/tmp" ["-i"] ["b"]).1,
         (runLoop (fun _ => some "n") ⟨fun _ => .ok false, fun _ => .ok true⟩
              "/tmp" ["-i"] ["b"]).2) ∧
    runLoop (fun _ => some "n") ⟨fun _ => .ok false, fun _ => .ok true⟩
        "/tmp" ["-i"] ["a"]
      = ([.prompt ("remove " ++ "a" ++ "?") false], .finished) ∧
    Ev.roReject ∉
      (processFile (fun _ => some "n") ⟨fun _ => .ok false, fun _ => .ok true⟩
        "/tmp" ["-i"] "a").1 ∧
    Ev.renameCall "a" "/tmp/a" ∉
      (processFile (fun _ => some "n") ⟨fun _ => .ok false, fun _ => .ok true⟩
        "/tmp" ["-i"] "a").1 :=
  interactive_decline (fun _ => some "n")
    ⟨fun _ => .ok false, fun _ => .ok true⟩ "/tmp" ["-i"] "a" "a" "/tmp/a" ["b"]
    rfl rfl rfl

/-! ### The engine only consumes the flag list through membership -/

theorem moveStage_congr (fs : FS) (l1 l2 : List String)
    (hIn : ∀ s, In s l1 = In s l2) (fp fn d : String) :
    moveStage fs l1 fp fn d = moveStage fs l2 fp fn d := by
  simp only [moveStage, forceFlag, verboseFlag, hIn]

theorem interactiveStage_congr (input : String → Option String) (fs : FS)
    (l1 l2 : List String) (hIn : ∀ s, In s l1 = In s l2) (fp fn d : String) :
    interactiveStage input fs l1 fp fn d = interactiveStage input fs l2 fp fn d := by
  simp only [interactiveStage, interactiveFlag, hIn,
    moveStage_congr fs l1 l2 hIn]

theorem nameStage_congr (input : String → Option String) (fs : FS)
    (targetDir : String) (l1 l2 : List String)
    (hIn : ∀ s, In s l1 = In s l2) (fp : String) :
    nameStage input fs targetDir l1 fp = nameStage input fs targetDir l2 fp := by
  simp only [nameStage, interactiveStage_congr input fs l1 l2 hIn]

theorem processFile_congr (input : String → Option String) (fs : FS)
    (targetDir : String) (l1 l2 : List String)
    (hIn : ∀ s, In s l1 = In s l2) (fp : String) :
    processFile input fs targetDir l1 fp = processFile input fs targetDir l2 fp := by
  simp only [processFile, recursiveFlag, directoryFlag,
    nonintrusiveInteractiveFlag, hIn,
    nameStage_congr input fs targetDir l1 l2 hIn]

theorem runLoop_congr (input : String → Option String) (fs : FS)
    (targetDir : String) (l1 l2 : List String)
    (hIn : ∀ s, In s l1 = In s l2) :
    ∀ files, runLoop input fs targetDir l1 files = runLoop input fs targetDir l2 files := by
  intro files
  induction files with
  | nil => rfl
  | cons fp rest ih =>
    simp only [runLoop, processFile_congr input fs targetDir l1 l2 hIn, ih]

theorem mainRun_congr (input : String → Option String) (fs : FS)
    (targetDir : String) (l1 l2 : List String)
    (hIn : ∀ s, In s l1 = In s l2) (files : List String) :
    mainRun input fs targetDir l1 files = mainRun input fs targetDir l2 files := by
  simp only [mainRun, helpFlag, nonintrusiveInteractiveFlag, hIn,
    runLoop_congr input fs targetDir l1 l2 hIn]

/-- C9: duplicate flag occurrences collapse — deduplicating the flag list
changes none of the derived flag booleans and leaves the whole engine run
unchanged. -/
theorem duplicate_flags_idempotent (input : String → Option String) (fs : FS)
    (targetDir : String) (flags files : List String) :
    forceFlag flags.dedup = forceFlag flags ∧
    interactiveFlag flags.dedup = interactiveFlag flags ∧
    nonintrusiveInteractiveFlag flags.dedup = nonintrusiveInteractiveFlag flags ∧
    recursiveFlag flags.dedup = recursiveFlag flags ∧
    directoryFlag flags.dedup = directoryFlag flags ∧
    verboseFlag flags.dedup = verboseFlag flags ∧
    helpFlag flags.dedup = helpFlag flags ∧
    mainRun input fs targetDir flags.dedup files
      = mainRun input fs targetDir flags files := by
  have hIn : ∀ s, In s flags.dedup = In s flags := fun s => In_dedup s flags
  exact ⟨by simp [forceFlag, hIn], by simp [interactiveFlag, hIn],
    by simp [nonintrusiveInteractiveFlag, hIn], by simp [recursiveFlag, hIn],
    by simp [directoryFlag, hIn], by simp [verboseFlag, hIn],
    by simp [helpFlag, hIn],
    mainRun_congr input fs targetDir flags.dedup flags hIn files⟩

end Srm
